import Mathlib

/-!
Shallow embedding of `util/topology/topology.go` (package `topology`).

The engine interprets a declarative rule document (rendered by an external
CUE compiler) against a live resource, producing sub-resource trees and
peer-resource lists.  External collaborators (kube client, CUE compiler,
GVK resolution) are modelled as an explicit environment of functions; the
rendered document is modelled by the inductive `CueVal`, which supports
exactly the operations the engine uses: path lookup, list iteration,
field iteration, typed decoding, scalar extraction, and the error query.

Naming follows the source where Lean allows it.  The Go field `Namespace`
is rendered `nspace` because `namespace` is a Lean keyword.
-/

set_option autoImplicit false

namespace Topology

/-- Modelled from the spec: `k8s.Resource` (util/k8s, not under src/) is the
identity tuple group/kind/name/namespace with full structural equality. -/
structure Resource where
  group : String
  resource : String
  name : String
  nspace : String
deriving DecidableEq, Repr

/-- Owner reference metadata of a listed object (name and kind are the only
fields the engine reads). -/
structure OwnerRef where
  name : String
  kind : String
deriving DecidableEq, Repr

/-- A listed cluster object: identity plus the metadata the engine reads. -/
structure Unstructured where
  name : String
  nspace : String
  annotations : List (String × String)
  labels : List (String × String)
  ownerRefs : List OwnerRef
deriving DecidableEq, Repr

/-- The target reference of one endpoint inside an endpoint slice. -/
structure TargetRef where
  name : String
  nspace : String
  kind : String
deriving DecidableEq, Repr

/-- One endpoint of an endpoint slice; in Go `TargetRef` is a nullable
pointer, modelled as `Option`. -/
structure Endpoint where
  targetRef : Option TargetRef
deriving DecidableEq, Repr

/-- One endpoint slice: its endpoints and its owner references. -/
structure EndpointSlice where
  endpoints : List Endpoint
  ownerRefs : List OwnerRef
deriving DecidableEq, Repr

/-- Resolved API coordinates of a group/kind pair. -/
structure GVK where
  group : String
  version : String
  kind : String
deriving DecidableEq, Repr

/-- Options accumulated for a list call (`client.InNamespace`,
`client.MatchingLabels`). -/
structure ListOpts where
  nspace : Option String
  labels : Option (List (String × String))
deriving DecidableEq, Repr

/-- A rendered CUE value: the shapes the engine inspects, plus an error
carrier corresponding to `cue.Value.Err()`. -/
inductive CueVal where
  | str (s : String)
  | bool (b : Bool)
  | list (elems : List CueVal)
  | obj (fields : List (String × CueVal))
  | err (msg : String)

/-- Error taxonomy of the engine, matching the error values the Go code
produces (plus `goFault` for runtime faults and `fuelExhausted` for the
fuel bound of the embedding of unbounded Go recursion). -/
inductive TopoErr where
  | storeErr (msg : String)
  | renderErr (msg : String)
  | rulesNotFound
  | ruleNotFound (group kind : String)
  | notAList (what : String)
  | decodeErr (msg : String)
  | selectorMissing
  | unknownSelector (key : String)
  | unsupportedBuiltin (tag : String)
  | goFault (msg : String)
  | fuelExhausted
deriving DecidableEq, Repr

/-- First field with the given key, in field order. -/
def lookupField : List (String × CueVal) → String → Option CueVal
  | [], _ => none
  | (k, v) :: rest, key => if k == key then some v else lookupField rest key

namespace CueVal

/-- `v.LookupPath(path)` for a single path component; a missing field or a
non-struct value does not exist. -/
def lookup : CueVal → String → Option CueVal
  | .obj fs, key => lookupField fs key
  | _, _ => none

/-- `v.String()`. -/
def getString : CueVal → Except String String
  | .str s => .ok s
  | _ => .error "value is not a string"

/-- `v.Bool()`. -/
def getBool : CueVal → Except String Bool
  | .bool b => .ok b
  | _ => .error "value is not a bool"

/-- `v.List()`. -/
def asList : CueVal → Except String (List CueVal)
  | .list es => .ok es
  | _ => .error "value is not a list"

/-- `v.Fields()`. -/
def fieldsOf : CueVal → Except String (List (String × CueVal))
  | .obj fs => .ok fs
  | _ => .error "value is not a struct"

/-- `v.Kind() == cue.StringKind`. -/
def isStringKind : CueVal → Bool
  | .str _ => true
  | _ => false

/-- `v.Err()`. -/
def errOf : CueVal → Option String
  | .err m => some m
  | _ => none

end CueVal

/-- Decoding a string-typed struct field in the sense of `cue.Value.Decode`
into a Go string field: missing means zero value, wrong type is an error. -/
def decodeStrField (fs : List (String × CueVal)) (key : String) : Except String String :=
  match lookupField fs key with
  | none => .ok ""
  | some (.str s) => .ok s
  | some _ => .error ("cannot decode field " ++ key)

/-- `v.Decode(&k8s.Resource{})`: json-style decoding of the base identity;
unknown fields are ignored. -/
def decodeResource (v : CueVal) : Except String Resource :=
  match v with
  | .obj fs =>
    match decodeStrField fs "group" with
    | .error m => .error m
    | .ok g =>
      match decodeStrField fs "resource" with
      | .error m => .error m
      | .ok r =>
        match decodeStrField fs "name" with
        | .error m => .error m
        | .ok n =>
          match decodeStrField fs "namespace" with
          | .error m => .error m
          | .ok ns => .ok ⟨g, r, n, ns⟩
  | _ => .error "cannot decode resource"

/-- Element-wise decoding of a list of CUE strings. -/
def decodeStrings : List CueVal → Except String (List String)
  | [] => .ok []
  | .str s :: rest =>
    match decodeStrings rest with
    | .ok ss => .ok (s :: ss)
    | .error m => .error m
  | _ :: _ => .error "cannot decode string list element"

/-- `v.Decode(&names)` for `names : []string`. -/
def decodeStringList : CueVal → Except String (List String)
  | .list es => decodeStrings es
  | _ => .error "cannot decode string list"

/-- `v.Decode(&m)` for `m : map[string]string`, keeping field order. -/
def decodeStringMap : CueVal → Except String (List (String × String))
  | .obj fs => decodeStringMapFields fs
  | _ => .error "cannot decode string map"
where
  decodeStringMapFields : List (String × CueVal) → Except String (List (String × String))
    | [] => .ok []
    | (k, .str s) :: rest =>
      match decodeStringMapFields rest with
      | .ok ps => .ok ((k, s) :: ps)
      | .error m => .error m
    | _ :: _ => .error "cannot decode string map value"

/-- Lookup in a string-to-string association list, first match. -/
def lookupStr : List (String × String) → String → Option String
  | [], _ => none
  | (k, v) :: rest, key => if k == key then some v else lookupStr rest key

/-- `reflect.DeepEqual` on two string maps: same keys, same values. -/
def mapsEqual (a b : List (String × String)) : Bool :=
  a.all (fun kv => lookupStr b kv.1 == some kv.2) &&
    b.all (fun kv => lookupStr a kv.1 == some kv.2)

/-- The lazily built `map[string]cue.Value` rule index, as an association
list with Go map overwrite-on-insert semantics. -/
abbrev RuleIndex := List (String × CueVal)

/-- Go map assignment: overwrite an existing key, otherwise append. -/
def idxInsert : RuleIndex → String → CueVal → RuleIndex
  | [], k, v => [(k, v)]
  | (k0, v0) :: rest, k, v =>
    if k0 == k then (k, v) :: rest else (k0, v0) :: idxInsert rest k v

/-- Go map read. -/
def idxLookup : RuleIndex → String → Option CueVal
  | [], _ => none
  | (k0, v0) :: rest, k => if k0 == k then some v0 else idxLookup rest k

/-- `fmt.Sprintf("%s/%s", group, resource)`. -/
def ruleKey (group resource : String) : String :=
  group ++ "/" ++ resource

/-- The loop inside `getRuleForResource` that decodes each rule entry and
inserts it into the index; on a decode error the partial map is kept. -/
def buildRules : List CueVal → RuleIndex → RuleIndex × Option TopoErr
  | [], m => (m, none)
  | e :: rest, m =>
    match decodeResource e with
    | .error msg => (m, some (.decodeErr msg))
    | .ok re => buildRules rest (idxInsert m (ruleKey re.group re.resource) e)

/-- `getRuleForResource`: the engine field `rules` is `Option RuleIndex`
(`none` models a nil Go map).  The build runs only when the map is nil;
its mutation of the receiver is modelled by returning the new state. -/
def getRuleForResource (st : Option RuleIndex) (v : CueVal) (res : Resource) :
    Option RuleIndex × Except TopoErr CueVal :=
  match st with
  | some m =>
    match idxLookup m (ruleKey res.group res.resource) with
    | some rule => (some m, .ok rule)
    | none => (some m, .error (.ruleNotFound res.group res.resource))
  | none =>
    match CueVal.lookup v "rules" with
    | none => (some [], .error .rulesNotFound)
    | some rv =>
      match rv.asList with
      | .error _ => (some [], .error (.notAList "rules"))
      | .ok elems =>
        match buildRules elems [] with
        | (m, some e) => (some m, .error e)
        | (m, none) =>
          match idxLookup m (ruleKey res.group res.resource) with
          | some rule => (some m, .ok rule)
          | none => (some m, .error (.ruleNotFound res.group res.resource))

/-- `ResourceSelector`. -/
structure ResourceSelector where
  group : String
  resource : String
  selectorKey : String
  selectorValue : CueVal

/-- The environment of external collaborators: resource fetch, template
compilation, GVK resolution, list queries, and the endpoint-slice list. -/
structure Env where
  fetch : Resource → Except String Unstructured
  compile : String → Unstructured → Except String CueVal
  getGVK : String → String → Except String GVK
  listGVK : GVK → ListOpts → Except String (List Unstructured)
  listEndpointSlices : String → Except String (List EndpointSlice)

/-- The `switch selector.SelectorKey` stage of `listResources`: computes the
list options, the decoded annotations filter and the owner flag.  Note that
the source has a (dead) case for the `name` key that treats its value as a
namespace, and no case for the `namespace` key, which therefore falls to the
default branch and errors. -/
def selArgs (selector : ResourceSelector) (relation : Resource) :
    Except TopoErr (ListOpts × List (String × String) × Bool) :=
  match selector.selectorKey with
  | "name" =>
    match selector.selectorValue.getString with
    | .ok ns => .ok (⟨some ns, none⟩, [], false)
    | .error _ => .ok (⟨none, none⟩, [], false)
  | "labels" =>
    match decodeStringMap selector.selectorValue with
    | .ok ls => .ok (⟨none, some ls⟩, [], false)
    | .error _ => .ok (⟨none, none⟩, [], false)
  | "annotations" =>
    .ok (⟨none, none⟩, ((decodeStringMap selector.selectorValue).toOption.getD []), false)
  | "ownerReference" =>
    match selector.selectorValue.getBool with
    | .ok b => .ok (⟨some relation.nspace, none⟩, [], b)
    | .error _ => .ok (⟨none, none⟩, [], false)
  | k => .error (.unknownSelector k)

/-- The owner-reference post filter: the nested Go loop appends the item
once per owner reference whose name and kind match the relation. -/
def ownerFilter (relation : Resource) : List Unstructured → List Unstructured
  | [] => []
  | un :: rest =>
    (un.ownerRefs.filterMap fun ref =>
      if ref.name == relation.name && ref.kind == relation.resource then some un else none)
      ++ ownerFilter relation rest

/-- `listResources`: build options from the selector key, resolve the GVK,
issue the list call, then post-filter by annotations or owner references. -/
def listResources (env : Env) (selector : ResourceSelector) (relation : Resource) :
    Except TopoErr (List Unstructured) :=
  match selArgs selector relation with
  | .error e => .error e
  | .ok (opts, annos, owner) =>
    match env.getGVK selector.group selector.resource with
    | .error m => .error (.storeErr m)
    | .ok gvk =>
      match env.listGVK gvk opts with
      | .error m => .error (.storeErr m)
      | .ok items =>
        if annos.isEmpty then
          if owner then .ok (ownerFilter relation items) else .ok items
        else
          .ok (items.filter fun un => mapsEqual un.annotations annos)

/-- `SubResource`: a tree node, the resource plus its children. -/
inductive SubResource where
  | mk (res : Resource) (children : List SubResource)

/-- Projection to the node resource. -/
def SubResource.res : SubResource → Resource
  | .mk r _ => r

/-- Projection to the children. -/
def SubResource.children : SubResource → List SubResource
  | .mk _ cs => cs

mutual

/-- `getGroupResourceFromSubs`: collect the nodes of the tree whose group
and kind match, the node first, then its children in order. -/
def getGroupResourceFromSubs : SubResource → String → String → List Resource
  | .mk r cs, g, k =>
    (if r.group == g && r.resource == k then [r] else [])
      ++ getGroupResourceFromSubsList cs g k

/-- The recursion of `getGroupResourceFromSubs` over a child list. -/
def getGroupResourceFromSubsList : List SubResource → String → String → List Resource
  | [], _, _ => []
  | c :: rest, g, k =>
    getGroupResourceFromSubs c g k ++ getGroupResourceFromSubsList rest g k

end

/-- The candidate set of the built-in service heuristic: all Pod-kind
nodes (empty group, kind Pod) of the expanded sub-resource forest. -/
def podsOf (subs : List SubResource) : List Resource :=
  getGroupResourceFromSubsList subs "" "Pod"

/-- Whether one endpoint matches a candidate Pod, mirroring the literal
`k8s.Resource` the Go code builds from the (dereferenced) target ref. -/
def epMatch (pods : List Resource) (ep : Endpoint) : Bool :=
  match ep.targetRef with
  | none => false
  | some tr => pods.contains ⟨"", tr.kind, tr.name, tr.nspace⟩

/-- Name of the first owner reference, the zero value when there is none. -/
def headOwnerName : List OwnerRef → String
  | [] => ""
  | o :: _ => o.name

/-- The identity one matching endpoint contributes: the owning object of
the slice, in the context namespace, with empty group and kind Service. -/
def emitService (pods : List Resource) (ns : String) (ors : List OwnerRef) (ep : Endpoint) :
    Option Resource :=
  match ep.targetRef with
  | none => none
  | some tr =>
    if pods.contains ⟨"", tr.kind, tr.name, tr.nspace⟩ then
      some ⟨"", "Service", headOwnerName ors, ns⟩
    else none

/-- The inner loop of `handleBuiltInRulesForService` over the endpoints of
one slice.  The Go code dereferences `s.TargetRef` unconditionally and
indexes `e.OwnerReferences[0]` on a match; both faults are surfaced as
`goFault` results. -/
def collectEndpoints (pods : List Resource) (ns : String) (ors : List OwnerRef) :
    List Endpoint → Except TopoErr (List Resource)
  | [] => .ok []
  | ep :: rest =>
    match ep.targetRef with
    | none => .error (.goFault "invalid memory address or nil pointer dereference")
    | some tr =>
      if pods.contains ⟨"", tr.kind, tr.name, tr.nspace⟩ then
        match ors with
        | [] => .error (.goFault "index out of range")
        | o :: _ =>
          match collectEndpoints pods ns ors rest with
          | .error e => .error e
          | .ok more => .ok (⟨"", "Service", o.name, ns⟩ :: more)
      else
        collectEndpoints pods ns ors rest

/-- The outer loop of `handleBuiltInRulesForService` over the slices. -/
def collectServiceRefs (pods : List Resource) (ns : String) :
    List EndpointSlice → Except TopoErr (List Resource)
  | [] => .ok []
  | e :: rest =>
    match collectEndpoints pods ns e.ownerRefs e.endpoints with
    | .error er => .error er
    | .ok here =>
      match collectServiceRefs pods ns rest with
      | .error er => .error er
      | .ok more => .ok (here ++ more)

/-- The type of the recursive `getSubResources` call threaded through the
selector evaluator (open recursion, tied with fuel below). -/
abbrev RecFn :=
  Option RuleIndex → CueVal → Resource → Option RuleIndex × Except TopoErr (List SubResource)

/-- `handleBuiltInRulesForService`, parameterized by the recursive
sub-resource expansion.  Note the Go caller passes the selector
declaration value, not the rendered document, as `v`. -/
def handleBuiltInRulesForServiceG (env : Env) (recur : RecFn)
    (st : Option RuleIndex) (v : CueVal) (res : Resource) :
    Option RuleIndex × Except TopoErr (List Resource) :=
  match recur st v res with
  | (st1, .error e) => (st1, .error e)
  | (st1, .ok subs) =>
    match env.listEndpointSlices res.nspace with
    | .error m => (st1, .error (.storeErr m))
    | .ok slices =>
      match collectServiceRefs (podsOf subs) res.nspace slices with
      | .error e => (st1, .error e)
      | .ok svc => (st1, .ok svc)

/-- `handleBuiltInRules`: case-insensitive dispatch on the builtin tag. -/
def handleBuiltInRulesG (env : Env) (recur : RecFn)
    (st : Option RuleIndex) (typ : String) (v : CueVal) (res : Resource) :
    Option RuleIndex × Except TopoErr (List Resource) :=
  if typ.toLower == "service" then
    handleBuiltInRulesForServiceG env recur st v res
  else
    (st, .error (.unsupportedBuiltin typ))

/-- The `for fields.Next()` loop of `getResourcesWithSelector`: every field
of the selector object is processed in order; a `builtin` field returns
immediately, dropping the accumulator, as the Go `return` does. -/
def goSelFieldsG (env : Env) (recur : RecFn) (d : CueVal) (res : Resource) (base : Resource) :
    Option RuleIndex → List Resource → List (String × CueVal) →
      Option RuleIndex × Except TopoErr (List Resource)
  | st, acc, [] => (st, .ok acc)
  | st, acc, (label, fv) :: rest =>
    if label == "builtin" then
      match fv.getString with
      | .error m => (st, .error (.decodeErr m))
      | .ok typ => handleBuiltInRulesG env recur st typ d res
    else if label == "name" then
      if fv.isStringKind then
        match fv.getString with
        | .error m => (st, .error (.decodeErr m))
        | .ok nm =>
          goSelFieldsG env recur d res base st
            (acc ++ [⟨base.group, base.resource, nm, res.nspace⟩]) rest
      else
        match decodeStringList fv with
        | .error m => (st, .error (.decodeErr m))
        | .ok names =>
          goSelFieldsG env recur d res base st
            (acc ++ names.map fun nm => ⟨base.group, base.resource, nm, res.nspace⟩) rest
    else
      match listResources env ⟨base.group, base.resource, label, fv⟩ res with
      | .error e => (st, .error e)
      | .ok items =>
        goSelFieldsG env recur d res base st
          (acc ++ items.map fun it => ⟨base.group, base.resource, it.name, it.nspace⟩) rest

/-- `getResourcesWithSelector`, parameterized by the recursive expansion:
decode the base identity, require the `selector` field, iterate its
fields. -/
def getResourcesWithSelectorG (env : Env) (recur : RecFn)
    (st : Option RuleIndex) (d : CueVal) (res : Resource) :
    Option RuleIndex × Except TopoErr (List Resource) :=
  match decodeResource d with
  | .error m => (st, .error (.decodeErr m))
  | .ok base =>
    match d.lookup "selector" with
    | none => (st, .error .selectorMissing)
    | some selVal =>
      match selVal.fieldsOf with
      | .error m => (st, .error (.decodeErr m))
      | .ok fields => goSelFieldsG env recur d res base st [] fields

/-- The `for _, item := range items` loop of `getSubResources`: expand each
discovered child recursively and build its node. -/
def goChildrenG (env : Env) (recur : RecFn) (v : CueVal) :
    Option RuleIndex → List Resource → Option RuleIndex × Except TopoErr (List SubResource)
  | st, [] => (st, .ok [])
  | st, item :: rest =>
    match recur st v item with
    | (st1, .error e) => (st1, .error e)
    | (st1, .ok children) =>
      match goChildrenG env recur v st1 rest with
      | (st2, .error e) => (st2, .error e)
      | (st2, .ok more) => (st2, .ok (.mk item children :: more))

/-- The `for iter.Next()` loop of `getSubResources` over the sub-resource
declarations. -/
def goSubDeclsG (env : Env) (recur : RecFn) (v : CueVal) (res : Resource) :
    Option RuleIndex → List CueVal → Option RuleIndex × Except TopoErr (List SubResource)
  | st, [] => (st, .ok [])
  | st, d :: rest =>
    match getResourcesWithSelectorG env recur st d res with
    | (st1, .error e) => (st1, .error e)
    | (st1, .ok items) =>
      match goChildrenG env recur v st1 items with
      | (st2, .error e) => (st2, .error e)
      | (st2, .ok nodes) =>
        match goSubDeclsG env recur v res st2 rest with
        | (st3, .error e) => (st3, .error e)
        | (st3, .ok more) => (st3, .ok (nodes ++ more))

/-- The body of `getSubResources`: a failing rule lookup is a soft empty
result; an absent `subResources` field likewise; a non-list value errors. -/
def getSubResourcesBody (env : Env) (recur : RecFn)
    (st : Option RuleIndex) (v : CueVal) (res : Resource) :
    Option RuleIndex × Except TopoErr (List SubResource) :=
  match getRuleForResource st v res with
  | (st1, .error _) => (st1, .ok [])
  | (st1, .ok rule) =>
    match rule.lookup "subResources" with
    | none => (st1, .ok [])
    | some subs =>
      match subs.asList with
      | .error _ => (st1, .error (.notAList "subResources"))
      | .ok decls => goSubDeclsG env recur v res st1 decls

/-- `getSubResources`, with fuel bounding the unbounded Go recursion. -/
def getSubResources (env : Env) : Nat → RecFn
  | 0 => fun st _ _ => (st, .error .fuelExhausted)
  | n + 1 => fun st v res => getSubResourcesBody env (getSubResources env n) st v res

/-- `getResourcesWithSelector` with the recursion tied at the given fuel. -/
def getResourcesWithSelector (env : Env) (fuel : Nat)
    (st : Option RuleIndex) (d : CueVal) (res : Resource) :
    Option RuleIndex × Except TopoErr (List Resource) :=
  getResourcesWithSelectorG env (getSubResources env fuel) st d res

/-- `handleBuiltInRulesForService` with the recursion tied at `fuel`. -/
def handleBuiltInRulesForService (env : Env) (fuel : Nat)
    (st : Option RuleIndex) (v : CueVal) (res : Resource) :
    Option RuleIndex × Except TopoErr (List Resource) :=
  handleBuiltInRulesForServiceG env (getSubResources env fuel) st v res

/-- The `for iter.Next()` loop of `getPeerResources`: evaluate each peer
declaration once and concatenate. -/
def goPeerDecls (env : Env) (fuel : Nat) (res : Resource) :
    Option RuleIndex → List CueVal → Option RuleIndex × Except TopoErr (List Resource)
  | st, [] => (st, .ok [])
  | st, d :: rest =>
    match getResourcesWithSelector env fuel st d res with
    | (st1, .error e) => (st1, .error e)
    | (st1, .ok items) =>
      match goPeerDecls env fuel res st1 rest with
      | (st2, .error e) => (st2, .error e)
      | (st2, .ok more) => (st2, .ok (items ++ more))

/-- `getPeerResources`: an absent `peerResources` field is an empty result,
a non-list value errors, declarations are evaluated flat (no recursion). -/
def getPeerResources (env : Env) (fuel : Nat)
    (st : Option RuleIndex) (rule : CueVal) (res : Resource) :
    Option RuleIndex × Except TopoErr (List Resource) :=
  match rule.lookup "peerResources" with
  | none => (st, .ok [])
  | some peer =>
    match peer.asList with
    | .error _ => (st, .error (.notAList "peerResources"))
    | .ok decls => goPeerDecls env fuel res st decls

/-- The engine struct `resourceTopology`: the rule template and the cached
rule index (`none` models a nil Go map). -/
structure resourceTopology where
  ruleTemplate : String
  rules : Option RuleIndex

/-- `New`: note the index is pre-initialized to a NON-nil empty map. -/
def New (rules : String) : resourceTopology :=
  ⟨rules, some []⟩

/-- `GetSubResources`: fetch the live resource, render the template with it
as context data, then expand.  The rendered value error is NOT checked. -/
def GetSubResources (env : Env) (fuel : Nat) (r : resourceTopology) (res : Resource) :
    Option RuleIndex × Except TopoErr (List SubResource) :=
  match env.fetch res with
  | .error m => (r.rules, .error (.storeErr m))
  | .ok un =>
    match env.compile r.ruleTemplate un with
    | .error m => (r.rules, .error (.renderErr m))
    | .ok v => getSubResources env fuel r.rules v res

/-- `GetPeerResources`: fetch, render, check the rendered value error, look
up the rule (hard error when missing), then resolve the peers flat. -/
def GetPeerResources (env : Env) (fuel : Nat) (r : resourceTopology) (res : Resource) :
    Option RuleIndex × Except TopoErr (List Resource) :=
  match env.fetch res with
  | .error m => (r.rules, .error (.storeErr m))
  | .ok un =>
    match env.compile r.ruleTemplate un with
    | .error m => (r.rules, .error (.renderErr m))
    | .ok v =>
      match v.errOf with
      | some m => (r.rules, .error (.renderErr m))
      | none =>
        match getRuleForResource r.rules v res with
        | (st1, .error e) => (st1, .error e)
        | (st1, .ok rule) => getPeerResources env fuel st1 rule res

/-! ### Concrete inputs used by counterexamples and witnesses -/

/-- A rule entry for apps/Deployment. -/
def demoRuleEntry : CueVal :=
  .obj [("group", .str "apps"), ("resource", .str "Deployment")]

/-- A rendered document holding exactly that rule. -/
def demoDoc : CueVal := .obj [("rules", .list [demoRuleEntry])]

/-- A Deployment resource whose rule the document above carries. -/
def demoRes : Resource := ⟨"apps", "Deployment", "web", "ns"⟩

/-- A live representation returned by the fetch stub. -/
def demoUn : Unstructured := ⟨"web", "ns", [], [], []⟩

/-- An environment whose compiler renders an empty document. -/
def emptyDocEnv : Env where
  fetch := fun _ => .ok demoUn
  compile := fun _ _ => .ok (.obj [])
  getGVK := fun _ _ => .error "unused"
  listGVK := fun _ _ => .error "unused"
  listEndpointSlices := fun _ => .error "unused"

/-- An environment whose compiler renders a document carrying an
evaluation error. -/
def errDocEnv : Env where
  fetch := fun _ => .ok demoUn
  compile := fun _ _ => .ok (.err "boom")
  getGVK := fun _ _ => .error "unused"
  listGVK := fun _ _ => .error "unused"
  listEndpointSlices := fun _ => .error "unused"

/-! ### C1 -/

/-- Claim C1 (code bug): the group/kind rule index is supposed to be built
lazily on first lookup against the rendered document and never persist
across top-level calls.  In the code, `New` pre-initializes the map to a
non-nil empty map while `getRuleForResource` only builds when the map is
nil, so through `New` the build never runs: the lookup fails even though
the document carries a matching rule.  Had the map been nil, the build
would run and find the rule.  Moreover, whenever the map is non-nil the
document argument is ignored entirely, so a built index persists across
top-level calls with different documents. -/
theorem c1_rule_index_dead_build :
    (New "tpl").rules = some [] ∧
    getRuleForResource (New "tpl").rules demoDoc demoRes
      = (some [], .error (.ruleNotFound "apps" "Deployment")) ∧
    getRuleForResource none demoDoc demoRes
      = (some [("apps/Deployment", demoRuleEntry)], .ok demoRuleEntry) ∧
    (∀ st : RuleIndex, ∀ v v' : CueVal, ∀ res : Resource,
      getRuleForResource (some st) v res = getRuleForResource (some st) v' res) :=
  ⟨rfl, rfl, rfl, fun _ _ _ _ => rfl⟩

/-! ### C2 -/

/-- Claim C2, amended: whenever the rule lookup fails, `getSubResources`
returns an empty result and no error while `GetPeerResources` propagates
the lookup error; the error is `rulesNotFound` only when the cached index
is nil and the document has no rules section, and with a non-nil cached
index (as `New` always produces) it is always `ruleNotFound`. -/
theorem c2_no_rule_soft_sub_hard_peer (env : Env) (fuel : Nat) (r : resourceTopology)
    (res : Resource) (un : Unstructured) (v : CueVal) (st1 : Option RuleIndex) (e : TopoErr)
    (hrule : getRuleForResource r.rules v res = (st1, .error e))
    (hf : env.fetch res = .ok un)
    (hc : env.compile r.ruleTemplate un = .ok v)
    (he : v.errOf = none) :
    GetSubResources env (fuel + 1) r res = (st1, .ok []) ∧
    GetPeerResources env fuel r res = (st1, .error e) ∧
    (∀ m, r.rules = some m → e = .ruleNotFound res.group res.resource) ∧
    (r.rules = none → v.lookup "rules" = none → e = .rulesNotFound) := by
  refine ⟨?_, ?_, ?_, ?_⟩
  · simp only [GetSubResources, hf, hc, getSubResources, getSubResourcesBody, hrule]
  · simp only [GetPeerResources, hf, hc, he, hrule]
  · intro m hm
    rw [hm] at hrule
    unfold getRuleForResource at hrule
    cases hidx : idxLookup m (ruleKey res.group res.resource) with
    | some rule => simp [hidx] at hrule
    | none =>
      simp only [hidx, Prod.mk.injEq, Except.error.injEq] at hrule
      exact hrule.2.symm
  · intro h0 hr
    rw [h0] at hrule
    unfold getRuleForResource at hrule
    simp only [hr, Prod.mk.injEq, Except.error.injEq] at hrule
    exact hrule.2.symm

/-- Witness for C2: a concrete engine from `New`, an empty document, the
Deployment resource; the sub query is empty without error and the peer
query errors. -/
theorem c2_no_rule_soft_sub_hard_peer_witness :
    GetSubResources emptyDocEnv 1 (New "tpl") demoRes = (some [], .ok []) ∧
    GetPeerResources emptyDocEnv 0 (New "tpl") demoRes
      = (some [], .error (.ruleNotFound "apps" "Deployment")) :=
  ⟨(c2_no_rule_soft_sub_hard_peer emptyDocEnv 0 (New "tpl") demoRes demoUn (.obj [])
      (some []) (.ruleNotFound "apps" "Deployment") rfl rfl rfl rfl).1,
   (c2_no_rule_soft_sub_hard_peer emptyDocEnv 0 (New "tpl") demoRes demoUn (.obj [])
      (some []) (.ruleNotFound "apps" "Deployment") rfl rfl rfl rfl).2.1⟩

/-- Counterexample for C2 as frozen: through a `New`-constructed engine the
document has no rules section at all, yet the peer query error is
`ruleNotFound`, not `rulesNotFound`, because the pre-initialized non-nil
index suppresses the branch that inspects the document. -/
theorem c2_rules_missing_gives_ruleNotFound :
    CueVal.lookup (.obj []) "rules" = none ∧
    GetPeerResources emptyDocEnv 0 (New "tpl") demoRes
      = (some [], .error (.ruleNotFound "apps" "Deployment")) ∧
    TopoErr.ruleNotFound "apps" "Deployment" ≠ TopoErr.rulesNotFound :=
  ⟨rfl, rfl, by decide⟩

/-! ### C3 -/

/-- Claim C3 (code bug): a selector with the `namespace` key reaches the
generic dispatch of `listResources`, which has no case for it (the
declared constant `namespaceSelectorKey` is never matched; the dead `name`
case parses its value as a namespace instead), so the evaluation fails
with the unknown-selector error for every environment, instead of issuing
a namespace-scoped list query. -/
theorem c3_namespace_selector_unknown (env : Env) (fuel : Nat) (st : Option RuleIndex)
    (g r : String) (val : CueVal) (rel : Resource) :
    listResources env ⟨g, r, "namespace", val⟩ rel = .error (.unknownSelector "namespace") ∧
    getResourcesWithSelector env fuel st (.obj [("selector", .obj [("namespace", val)])]) rel
      = (st, .error (.unknownSelector "namespace")) :=
  ⟨rfl, rfl⟩

/-! ### C5 -/

/-- Counterexample for C5: a rendered document carrying an evaluation
error does not fail `GetSubResources`; with a `New` engine the call
returns an empty result and no error. -/
theorem c5_sub_ignores_document_error :
    CueVal.errOf (.err "boom") = some "boom" ∧
    GetSubResources errDocEnv 1 (New "tpl") demoRes = (some [], .ok []) :=
  ⟨rfl, rfl⟩

/-- Claim C5, amended: only `GetPeerResources` checks the rendered document
for an evaluation error and fails with it; `GetSubResources` performs no
such check and proceeds directly to rule lookup and traversal. -/
theorem c5_only_peer_checks_document_error (env : Env) (fuel : Nat) (r : resourceTopology)
    (res : Resource) (un : Unstructured) (v : CueVal) (m : String)
    (hf : env.fetch res = .ok un)
    (hc : env.compile r.ruleTemplate un = .ok v)
    (he : v.errOf = some m) :
    GetPeerResources env fuel r res = (r.rules, .error (.renderErr m)) ∧
    GetSubResources env fuel r res = getSubResources env fuel r.rules v res := by
  constructor
  · simp only [GetPeerResources, hf, hc, he]
  · simp only [GetSubResources, hf, hc]

/-- Witness for C5: the concrete erroring document. -/
theorem c5_only_peer_checks_document_error_witness :
    GetPeerResources errDocEnv 0 (New "tpl") demoRes
      = (some [], .error (.renderErr "boom")) ∧
    GetSubResources errDocEnv 1 (New "tpl") demoRes
      = getSubResources errDocEnv 1 (some []) (.err "boom") demoRes :=
  ⟨(c5_only_peer_checks_document_error errDocEnv 0 (New "tpl") demoRes demoUn
      (.err "boom") "boom" rfl rfl rfl).1,
   (c5_only_peer_checks_document_error errDocEnv 1 (New "tpl") demoRes demoUn
      (.err "boom") "boom" rfl rfl rfl).2⟩

/-! ### Shared lemmas about `listResources` -/

/-- A per-item emission list: one copy of `un` per reference satisfying
the predicate. -/
lemma filterMap_if_eq_map_filter (un : Unstructured) (p : OwnerRef → Bool)
    (refs : List OwnerRef) :
    (refs.filterMap fun ref => if p ref then some un else none)
      = (refs.filter p).map fun _ => un := by
  induction refs with
  | nil => rfl
  | cons ref rest ih =>
    cases hp : p ref <;> simp [List.filterMap_cons, List.filter_cons, hp, ih]

/-- The owner post-filter keeps each listed item once per matching owner
reference. -/
lemma ownerFilter_eq_flatMap (rel : Resource) (items : List Unstructured) :
    ownerFilter rel items = items.flatMap fun un =>
      (un.ownerRefs.filter fun ref =>
        ref.name == rel.name && ref.kind == rel.resource).map fun _ => un := by
  induction items with
  | nil => rfl
  | cons x xs ih =>
    rw [ownerFilter, ih, List.flatMap_cons, filterMap_if_eq_map_filter]

/-- Membership in the owner post-filter: exactly the listed items with at
least one matching owner reference. -/
lemma mem_ownerFilter (rel : Resource) (items : List Unstructured) (un : Unstructured) :
    un ∈ ownerFilter rel items ↔
      un ∈ items ∧ ∃ ref ∈ un.ownerRefs, ref.name = rel.name ∧ ref.kind = rel.resource := by
  induction items with
  | nil => simp [ownerFilter]
  | cons x xs ih =>
    rw [ownerFilter, filterMap_if_eq_map_filter, List.mem_append, ih]
    simp only [List.mem_map, List.mem_filter, List.mem_cons,
      Bool.and_eq_true, beq_iff_eq]
    constructor
    · rintro (⟨ref, ⟨href, hn, hk⟩, rfl⟩ | ⟨hmem, h⟩)
      · exact ⟨Or.inl rfl, ref, href, hn, hk⟩
      · exact ⟨Or.inr hmem, h⟩
    · rintro ⟨rfl | hmem, ref, href, hn, hk⟩
      · exact Or.inl ⟨ref, ⟨href, hn, hk⟩, rfl⟩
      · exact Or.inr ⟨hmem, ref, href, hn, hk⟩

/-- Evaluation of `listResources` for an `ownerReference: true` selector:
the list call is scoped by the relation namespace (and no label filter)
and the result is the owner post-filter of what the store returned. -/
lemma listResources_ownerTrue (env : Env) (sel : ResourceSelector) (rel : Resource)
    (gvk : GVK) (items : List Unstructured)
    (hkey : sel.selectorKey = "ownerReference")
    (hval : sel.selectorValue = .bool true)
    (hgvk : env.getGVK sel.group sel.resource = .ok gvk)
    (hlist : env.listGVK gvk ⟨some rel.nspace, none⟩ = .ok items) :
    listResources env sel rel = .ok (ownerFilter rel items) := by
  obtain ⟨g, r, k, val⟩ := sel
  simp only at hkey hval hgvk
  subst hkey
  subst hval
  have hargs : selArgs ⟨g, r, "ownerReference", .bool true⟩ rel
      = .ok (⟨some rel.nspace, none⟩, [], true) := rfl
  simp [listResources, hargs, hgvk, hlist]

/-! ### C4 -/

/-- The evaluation environment for the duplicate-owner scenario: a single
ReplicaSet item owned twice (two matching owner references). -/
def dupItem : Unstructured :=
  ⟨"rs-1", "ns", [], [], [⟨"web", "Deployment"⟩, ⟨"web", "Deployment"⟩]⟩

/-- GVK stub for apps/ReplicaSet. -/
def rsGvk : GVK := ⟨"apps", "v1", "ReplicaSet"⟩

/-- Environment returning exactly `dupItem` for every list call. -/
def dupEnv : Env where
  fetch := fun _ => .error "unused"
  compile := fun _ _ => .error "unused"
  getGVK := fun _ _ => .ok rsGvk
  listGVK := fun _ _ => .ok [dupItem]
  listEndpointSlices := fun _ => .error "unused"

/-- The relation resource (a Deployment named web). -/
def dupRel : Resource := ⟨"apps", "Deployment", "web", "ns"⟩

/-- The owner-reference selector declaration. -/
def dupDecl : CueVal :=
  .obj [("group", .str "apps"), ("resource", .str "ReplicaSet"),
    ("selector", .obj [("ownerReference", .bool true)])]

/-- The owner-reference `ResourceSelector` reaching `listResources`. -/
def dupSel : ResourceSelector := ⟨"apps", "ReplicaSet", "ownerReference", .bool true⟩

/-- Counterexample for C4: a single selector evaluation duplicates a listed
item that carries two matching owner references; the produced
`ResourceRef` appears twice, not exactly once. -/
theorem c4_duplicate_refs_from_double_owner :
    getResourcesWithSelector dupEnv 0 (some []) dupDecl dupRel
      = (some [], .ok [⟨"apps", "ReplicaSet", "rs-1", "ns"⟩,
          ⟨"apps", "ReplicaSet", "rs-1", "ns"⟩]) ∧
    List.count (⟨"apps", "ReplicaSet", "rs-1", "ns"⟩ : Resource)
      [(⟨"apps", "ReplicaSet", "rs-1", "ns"⟩ : Resource),
        ⟨"apps", "ReplicaSet", "rs-1", "ns"⟩] = 2 :=
  ⟨rfl, by decide⟩

/-- Claim C4, amended: for an `ownerReference: true` selector the
evaluation retains each listed item once per matching owner reference, so
an item with several matching owner references appears several times; no
other duplication is introduced by a single selector evaluation. -/
theorem c4_owner_filter_once_per_matching_ref (env : Env) (sel : ResourceSelector)
    (rel : Resource) (gvk : GVK) (items : List Unstructured)
    (hkey : sel.selectorKey = "ownerReference")
    (hval : sel.selectorValue = .bool true)
    (hgvk : env.getGVK sel.group sel.resource = .ok gvk)
    (hlist : env.listGVK gvk ⟨some rel.nspace, none⟩ = .ok items) :
    listResources env sel rel = .ok (items.flatMap fun un =>
      (un.ownerRefs.filter fun ref =>
        ref.name == rel.name && ref.kind == rel.resource).map fun _ => un) := by
  rw [listResources_ownerTrue env sel rel gvk items hkey hval hgvk hlist,
    ownerFilter_eq_flatMap]

/-- Witness for C4: the duplicate-owner item comes back twice. -/
theorem c4_owner_filter_once_per_matching_ref_witness :
    listResources dupEnv dupSel dupRel = .ok [dupItem, dupItem] := by
  have h := c4_owner_filter_once_per_matching_ref dupEnv dupSel dupRel rsGvk [dupItem]
    rfl rfl rfl rfl
  exact h.trans (by rfl)

/-! ### C7 -/

/-- Claim C7: for an `ownerReference: true` selector the selector-key stage
scopes the list call to the relation namespace, and the retained items are
exactly those returned items with at least one owner reference whose name
and kind equal the relation resource. -/
theorem c7_owner_scope_and_membership (env : Env) (sel : ResourceSelector)
    (rel : Resource) (gvk : GVK) (items : List Unstructured)
    (hkey : sel.selectorKey = "ownerReference")
    (hval : sel.selectorValue = .bool true)
    (hgvk : env.getGVK sel.group sel.resource = .ok gvk)
    (hlist : env.listGVK gvk ⟨some rel.nspace, none⟩ = .ok items) :
    selArgs sel rel = .ok (⟨some rel.nspace, none⟩, [], true) ∧
    listResources env sel rel = .ok (ownerFilter rel items) ∧
    ∀ un, un ∈ ownerFilter rel items ↔
      un ∈ items ∧ ∃ ref ∈ un.ownerRefs, ref.name = rel.name ∧ ref.kind = rel.resource := by
  refine ⟨?_, listResources_ownerTrue env sel rel gvk items hkey hval hgvk hlist,
    fun un => mem_ownerFilter rel items un⟩
  obtain ⟨g, r, k, val⟩ := sel
  simp only at hkey hval
  subst hkey
  subst hval
  rfl

/-- Witness for C7 at the duplicate-owner scenario. -/
theorem c7_owner_scope_and_membership_witness :
    selArgs dupSel dupRel = .ok (⟨some dupRel.nspace, none⟩, [], true) ∧
    listResources dupEnv dupSel dupRel = .ok (ownerFilter dupRel [dupItem]) ∧
    ∀ un, un ∈ ownerFilter dupRel [dupItem] ↔
      un ∈ [dupItem] ∧ ∃ ref ∈ un.ownerRefs,
        ref.name = dupRel.name ∧ ref.kind = dupRel.resource :=
  c7_owner_scope_and_membership dupEnv dupSel dupRel rsGvk [dupItem] rfl rfl rfl rfl

/-! ### C9 -/

/-- An item carrying a non-empty annotation map. -/
def annItem : Unstructured := ⟨"x", "ns", [("a", "b")], [], []⟩

/-- Environment returning exactly `annItem`. -/
def annEnv : Env where
  fetch := fun _ => .error "unused"
  compile := fun _ _ => .error "unused"
  getGVK := fun _ _ => .ok ⟨"g", "v1", "R"⟩
  listGVK := fun _ _ => .ok [annItem]
  listEndpointSlices := fun _ => .error "unused"

/-- Counterexample for C9: with an empty annotations mapping the filter is
skipped entirely (`len(annos) > 0` fails), so an item whose annotation map
is NOT equal to the selector mapping is still returned. -/
theorem c9_empty_annotations_not_filtered :
    listResources annEnv ⟨"g", "R", "annotations", .obj []⟩ dupRel = .ok [annItem] ∧
    mapsEqual annItem.annotations [] = false :=
  ⟨rfl, rfl⟩

/-- Claim C9, amended: for an annotations selector whose mapping decodes to
a non-empty map, exactly the items whose full annotation mapping equals it
(as maps) are retained; for an empty mapping no filtering happens and the
whole listed set is returned. -/
theorem c9_annotations_filter_semantics (env : Env) (g r : String) (val : CueVal)
    (rel : Resource) (gvk : GVK) (items : List Unstructured)
    (annos : List (String × String))
    (hgvk : env.getGVK g r = .ok gvk)
    (hlist : env.listGVK gvk ⟨none, none⟩ = .ok items)
    (hdec : decodeStringMap val = .ok annos) :
    (annos ≠ [] → listResources env ⟨g, r, "annotations", val⟩ rel
      = .ok (items.filter fun un => mapsEqual un.annotations annos)) ∧
    (annos = [] → listResources env ⟨g, r, "annotations", val⟩ rel = .ok items) := by
  have hargs : selArgs ⟨g, r, "annotations", val⟩ rel = .ok (⟨none, none⟩, annos, false) := by
    simp [selArgs, hdec, Except.toOption]
  constructor
  · intro hne
    cases annos with
    | nil => exact absurd rfl hne
    | cons a as => simp [listResources, hargs, hgvk, hlist]
  · rintro rfl
    simp [listResources, hargs, hgvk, hlist]

/-- A second item whose annotations differ. -/
def annItem2 : Unstructured := ⟨"w", "ns", [("a", "c")], [], []⟩

/-- Environment returning one matching and one non-matching item. -/
def annEnv2 : Env where
  fetch := fun _ => .error "unused"
  compile := fun _ _ => .error "unused"
  getGVK := fun _ _ => .ok ⟨"g", "v1", "R"⟩
  listGVK := fun _ _ => .ok [annItem, annItem2]
  listEndpointSlices := fun _ => .error "unused"

/-- Witness for C9: with mapping `a: b`, only the item annotated exactly
`a: b` survives. -/
theorem c9_annotations_filter_semantics_witness :
    listResources annEnv2 ⟨"g", "R", "annotations", .obj [("a", .str "b")]⟩ dupRel
      = .ok [annItem] := by
  have h := c9_annotations_filter_semantics annEnv2 "g" "R" (.obj [("a", .str "b")])
    dupRel ⟨"g", "v1", "R"⟩ [annItem, annItem2] [("a", "b")] rfl rfl rfl
  exact (h.1 (by decide)).trans (by rfl)

/-! ### C8 -/

/-- Decoding a list of CUE string literals yields the literals in order. -/
lemma decodeStrings_map (ss : List String) :
    decodeStrings (ss.map CueVal.str) = .ok ss := by
  induction ss with
  | nil => rfl
  | cons s rest ih => simp [decodeStrings, ih]

/-- Claim C8, amended: for a declaration whose selector object consists of
the single field `name`, evaluation produces one `ResourceRef` per literal
name (one for a string value; one per element in order for a list of
strings), each with the base group/kind and the context namespace, and the
result is the same for every environment (no resource-store call). -/
theorem c8_name_only_selector_literal_refs (env : Env) (fuel : Nat) (st : Option RuleIndex)
    (d : CueVal) (res : Resource) (base : Resource)
    (hdec : decodeResource d = .ok base) :
    (∀ s : String, d.lookup "selector" = some (.obj [("name", .str s)]) →
      getResourcesWithSelector env fuel st d res
        = (st, .ok [⟨base.group, base.resource, s, res.nspace⟩])) ∧
    (∀ ss : List String, d.lookup "selector" = some (.obj [("name", .list (ss.map CueVal.str))]) →
      getResourcesWithSelector env fuel st d res
        = (st, .ok (ss.map fun nm => ⟨base.group, base.resource, nm, res.nspace⟩))) := by
  constructor
  · intro s hsel
    simp only [getResourcesWithSelector, getResourcesWithSelectorG, hdec, hsel]
    rfl
  · intro ss hsel
    simp only [getResourcesWithSelector, getResourcesWithSelectorG, hdec, hsel,
      CueVal.fieldsOf, goSelFieldsG]
    rw [if_neg (by decide)]
    rw [if_pos (by decide)]
    rw [if_neg (by simp [CueVal.isStringKind])]
    simp only [decodeStringList, decodeStrings_map, goSelFieldsG, List.nil_append]

/-- An environment whose list call returns an item named y, to show that a
selector carrying extra keys besides `name` does consult the store. -/
def extraKeyEnv : Env where
  fetch := fun _ => .error "unused"
  compile := fun _ _ => .error "unused"
  getGVK := fun _ _ => .ok ⟨"g", "v1", "R"⟩
  listGVK := fun _ _ => .ok [⟨"y", "nsy", [], [], []⟩]
  listEndpointSlices := fun _ => .error "unused"

/-- A declaration whose selector has a `labels` key next to the `name`
key. -/
def extraKeyDecl : CueVal :=
  .obj [("group", .str "g"), ("resource", .str "R"),
    ("selector", .obj [("labels", .obj [("app", .str "x")]), ("name", .str "x")])]

/-- The context resource for the extra-key scenario. -/
def extraKeyRes : Resource := ⟨"", "Service", "svc", "ns"⟩

/-- Counterexample for C8 as frozen: the selector has a `name` key, yet its
other key is also evaluated — a store-derived ref appears in the result, so
the output is not one ref per literal name and a store call was made. -/
theorem c8_name_with_extra_key_not_pure :
    getResourcesWithSelector extraKeyEnv 0 (some []) extraKeyDecl extraKeyRes
      = (some [], .ok [⟨"g", "R", "y", "nsy"⟩, ⟨"g", "R", "x", "ns"⟩]) ∧
    ([(⟨"g", "R", "y", "nsy"⟩ : Resource), ⟨"g", "R", "x", "ns"⟩]
      ≠ [(⟨"g", "R", "x", "ns"⟩ : Resource)]) :=
  ⟨rfl, by decide⟩

/-- Witness for C8: a single-name selector and a two-name list selector,
evaluated in an environment whose store always fails, still produce the
literal refs. -/
theorem c8_name_only_selector_literal_refs_witness :
    getResourcesWithSelector errDocEnv 0 (some [])
        (.obj [("group", .str "g"), ("resource", .str "R"),
          ("selector", .obj [("name", .str "x")])]) extraKeyRes
      = (some [], .ok [⟨"g", "R", "x", "ns"⟩]) ∧
    getResourcesWithSelector errDocEnv 0 (some [])
        (.obj [("group", .str "g"), ("resource", .str "R"),
          ("selector", .obj [("name", .list [.str "a", .str "b"])])]) extraKeyRes
      = (some [], .ok [⟨"g", "R", "a", "ns"⟩, ⟨"g", "R", "b", "ns"⟩]) :=
  ⟨(c8_name_only_selector_literal_refs errDocEnv 0 (some [])
      (.obj [("group", .str "g"), ("resource", .str "R"),
        ("selector", .obj [("name", .str "x")])]) extraKeyRes
      ⟨"g", "R", "", ""⟩ rfl).1 "x" rfl,
   (c8_name_only_selector_literal_refs errDocEnv 0 (some [])
      (.obj [("group", .str "g"), ("resource", .str "R"),
        ("selector", .obj [("name", .list [.str "a", .str "b"])])]) extraKeyRes
      ⟨"g", "R", "", ""⟩ rfl).2 ["a", "b"] rfl⟩

/-! ### C6 and C10: the built-in service heuristic -/

/-- The inner endpoint loop, evaluated: when every target reference is
present and the owner list is non-empty whenever some endpoint matches,
the loop succeeds and emits one identity per matching endpoint. -/
lemma collectEndpoints_eq (pods : List Resource) (ns : String) (ors : List OwnerRef)
    (eps : List Endpoint)
    (htr : ∀ ep ∈ eps, ep.targetRef ≠ none)
    (how : (∃ ep ∈ eps, epMatch pods ep = true) → ors ≠ []) :
    collectEndpoints pods ns ors eps = .ok (eps.filterMap (emitService pods ns ors)) := by
  induction eps with
  | nil => rfl
  | cons ep rest ih =>
    obtain ⟨tr, htr0⟩ : ∃ tr, ep.targetRef = some tr := by
      cases h : ep.targetRef with
      | none => exact absurd h (htr ep (List.mem_cons_self ep rest))
      | some tr => exact ⟨tr, rfl⟩
    have htr' : ∀ e ∈ rest, e.targetRef ≠ none :=
      fun e he => htr e (List.mem_cons_of_mem ep he)
    have how' : (∃ e ∈ rest, epMatch pods e = true) → ors ≠ [] := by
      rintro ⟨e, he, hm⟩
      exact how ⟨e, List.mem_cons_of_mem ep he, hm⟩
    cases hc : pods.contains ⟨"", tr.kind, tr.name, tr.nspace⟩ with
    | true =>
      have hors : ors ≠ [] := by
        refine how ⟨ep, List.mem_cons_self ep rest, ?_⟩
        simp only [epMatch, htr0]
        exact hc
      cases ors with
      | nil => exact absurd rfl hors
      | cons o os =>
        have e1 : collectEndpoints pods ns (o :: os) (ep :: rest)
            = match collectEndpoints pods ns (o :: os) rest with
              | .error e => .error e
              | .ok more => .ok (⟨"", "Service", o.name, ns⟩ :: more) := by
          simp only [collectEndpoints, htr0]
          rw [if_pos hc]
        rw [e1, ih htr' how', List.filterMap_cons]
        simp only [emitService, htr0]
        rw [if_pos hc]
        rfl
    | false =>
      have e1 : collectEndpoints pods ns ors (ep :: rest)
          = collectEndpoints pods ns ors rest := by
        simp only [collectEndpoints, htr0]
        rw [if_neg (by rw [hc]; simp)]
      rw [e1, ih htr' how', List.filterMap_cons]
      simp only [emitService, htr0]
      rw [if_neg (by rw [hc]; simp)]

/-- The outer slice loop, evaluated under the same well-definedness
conditions. -/
lemma collectServiceRefs_eq (pods : List Resource) (ns : String)
    (slices : List EndpointSlice)
    (htr : ∀ e ∈ slices, ∀ ep ∈ e.endpoints, ep.targetRef ≠ none)
    (how : ∀ e ∈ slices, (∃ ep ∈ e.endpoints, epMatch pods ep = true) → e.ownerRefs ≠ []) :
    collectServiceRefs pods ns slices
      = .ok (slices.flatMap fun e =>
          e.endpoints.filterMap (emitService pods ns e.ownerRefs)) := by
  induction slices with
  | nil => rfl
  | cons e rest ih =>
    have h1 := collectEndpoints_eq pods ns e.ownerRefs e.endpoints
      (htr e (List.mem_cons_self e rest)) (how e (List.mem_cons_self e rest))
    have h2 := ih (fun s hs => htr s (List.mem_cons_of_mem e hs))
      (fun s hs => how s (List.mem_cons_of_mem e hs))
    simp [collectServiceRefs, h1, h2, List.flatMap_cons]

/-- Claim C6: when the sub-resource expansion succeeds and the endpoint
slice accesses are well-defined, the heuristic emits, per endpoint whose
dereferenced target reference names a Pod-kind node of the expanded tree,
exactly one identity with empty group, kind Service, the first owner
reference name of the owning slice, and the context namespace — with no
deduplication across matching endpoints. -/
theorem c6_builtin_service_emission (env : Env) (fuel : Nat) (st st1 : Option RuleIndex)
    (v : CueVal) (res : Resource) (subs : List SubResource) (slices : List EndpointSlice)
    (hsub : getSubResources env fuel st v res = (st1, .ok subs))
    (hes : env.listEndpointSlices res.nspace = .ok slices)
    (htr : ∀ e ∈ slices, ∀ ep ∈ e.endpoints, ep.targetRef ≠ none)
    (how : ∀ e ∈ slices,
      (∃ ep ∈ e.endpoints, epMatch (podsOf subs) ep = true) → e.ownerRefs ≠ []) :
    handleBuiltInRulesForService env fuel st v res
      = (st1, .ok (slices.flatMap fun e =>
          e.endpoints.filterMap (emitService (podsOf subs) res.nspace e.ownerRefs))) := by
  simp only [handleBuiltInRulesForService, handleBuiltInRulesForServiceG, hsub, hes,
    collectServiceRefs_eq (podsOf subs) res.nspace slices htr how]

/-- The rule entry for the Service kind whose sub-resources are the two
Pods p1 and p2 by literal name. -/
def svcRuleEntry : CueVal :=
  .obj [("group", .str ""), ("resource", .str "Service"),
    ("subResources", .list [.obj [("resource", .str "Pod"),
      ("selector", .obj [("name", .list [.str "p1", .str "p2"])])]])]

/-- The rendered document holding exactly that rule. -/
def svcDoc : CueVal := .obj [("rules", .list [svcRuleEntry])]

/-- The context Service resource. -/
def svcRes : Resource := ⟨"", "Service", "svc", "ns"⟩

/-- One endpoint slice targeting p1, owned by Service svc-a. -/
def svcSlice : EndpointSlice :=
  ⟨[⟨some ⟨"p1", "ns", "Pod"⟩⟩], [⟨"svc-a", "Service"⟩]⟩

/-- Environment for the service scenario: the only external call the
heuristic needs is the endpoint-slice list. -/
def svcEnv : Env where
  fetch := fun _ => .error "unused"
  compile := fun _ _ => .error "unused"
  getGVK := fun _ _ => .error "unused"
  listGVK := fun _ _ => .error "unused"
  listEndpointSlices := fun _ => .ok [svcSlice]

/-- The sub-resource forest the document expands to for `svcRes`. -/
def svcSubs : List SubResource :=
  [.mk ⟨"", "Pod", "p1", "ns"⟩ [], .mk ⟨"", "Pod", "p2", "ns"⟩ []]

/-- The rule index after the (nil-map) build of the service document. -/
def svcIdx : Option RuleIndex := some [("/Service", svcRuleEntry)]

/-- Witness for C6: the spec scenario — Pods p1 and p2 in the tree, one
slice targeting p1 owned by Service svc-a — yields exactly one Service
identity named svc-a in the context namespace. -/
theorem c6_builtin_service_emission_witness :
    getSubResources svcEnv 2 none svcDoc svcRes = (svcIdx, .ok svcSubs) ∧
    handleBuiltInRulesForService svcEnv 2 none svcDoc svcRes
      = (svcIdx, .ok [⟨"", "Service", "svc-a", "ns"⟩]) := by
  refine ⟨rfl, ?_⟩
  have h := c6_builtin_service_emission svcEnv 2 none svcIdx svcDoc svcRes svcSubs
    [svcSlice] rfl rfl (by decide) (by decide)
  exact h.trans (by rfl)

/-- An environment whose endpoint-slice list returns one slice with one
endpoint that has no target reference. -/
def nilTargetEnv : Env where
  fetch := fun _ => .error "unused"
  compile := fun _ _ => .error "unused"
  getGVK := fun _ _ => .error "unused"
  listGVK := fun _ _ => .error "unused"
  listEndpointSlices := fun _ => .ok [⟨[⟨none⟩], []⟩]

/-- An environment whose endpoint-slice list returns a slice targeting p1
but carrying no owner reference. -/
def noOwnerEnv : Env where
  fetch := fun _ => .error "unused"
  compile := fun _ _ => .error "unused"
  getGVK := fun _ _ => .error "unused"
  listGVK := fun _ _ => .error "unused"
  listEndpointSlices := fun _ => .ok [⟨[⟨some ⟨"p1", "ns", "Pod"⟩⟩], []⟩]

/-- Counterexample for C10: store responses reaching the unguarded
accesses are NOT always well-defined — an endpoint without a target
reference faults (nil dereference) even when the candidate set is empty,
and a matching slice without owner references faults (index out of
range). -/
theorem c10_nil_target_ref_faults :
    handleBuiltInRulesForService nilTargetEnv 1 (some []) (.obj []) svcRes
      = (some [], .error (.goFault "invalid memory address or nil pointer dereference")) ∧
    handleBuiltInRulesForService noOwnerEnv 2 none svcDoc svcRes
      = (svcIdx, .error (.goFault "index out of range")) :=
  ⟨rfl, rfl⟩

/-- Claim C10, amended: the unguarded accesses are well-defined exactly
under the conditions the counterexample forces — every endpoint of every
returned slice carries a target reference, and every slice containing a
matching endpoint has a non-empty owner-reference list; under those
conditions the heuristic completes without a fault. -/
theorem c10_safe_under_nonnil_targets (env : Env) (fuel : Nat) (st st1 : Option RuleIndex)
    (v : CueVal) (res : Resource) (subs : List SubResource) (slices : List EndpointSlice)
    (hsub : getSubResources env fuel st v res = (st1, .ok subs))
    (hes : env.listEndpointSlices res.nspace = .ok slices)
    (htr : ∀ e ∈ slices, ∀ ep ∈ e.endpoints, ep.targetRef ≠ none)
    (how : ∀ e ∈ slices,
      (∃ ep ∈ e.endpoints, epMatch (podsOf subs) ep = true) → e.ownerRefs ≠ []) :
    ∃ out, handleBuiltInRulesForService env fuel st v res = (st1, .ok out) := by
  refine ⟨slices.flatMap fun e =>
    e.endpoints.filterMap (emitService (podsOf subs) res.nspace e.ownerRefs), ?_⟩
  simp only [handleBuiltInRulesForService, handleBuiltInRulesForServiceG, hsub, hes,
    collectServiceRefs_eq (podsOf subs) res.nspace slices htr how]

/-- Witness for C10 at the service scenario. -/
theorem c10_safe_under_nonnil_targets_witness :
    ∃ out, handleBuiltInRulesForService svcEnv 2 none svcDoc svcRes = (svcIdx, .ok out) :=
  c10_safe_under_nonnil_targets svcEnv 2 none svcIdx svcDoc svcRes svcSubs [svcSlice]
    rfl rfl (by decide) (by decide)

end Topology
